import Mathlib

/-!
Verification development for the task-scheduling core of the SwufeAgent
repository (`src/tools/ManagementTools.py`).

The Python code is shallowly embedded: the task registry (`TaskManager`),
the dependency resolver (`get_all_ready_tasks`), the state-mutating
operations (`mark_task_in_progress`, `mark_task_complete`,
`mark_task_failed`), the bulk constructor (`create_todo_list`), the report
builder (`get_final_summary`), the shared message board
(`SharedMessageBoard.post`) and the wave scheduler
(`execute_all_tasks_parallel`) become pure Lean functions over an explicit
state.  Python's insertion-ordered `dict` is modelled as an association
list with first-occurrence replacement; the external worker executor is
abstracted as an oracle mapping (wave number, task id) to an outcome.
-/

namespace SwufeAgent

/-- `TaskStatus` enum of `ManagementTools.py` (PENDING / IN_PROGRESS /
COMPLETED / FAILED, with string values "pending" / "running" /
"completed" / "failed"). -/
inductive TaskStatus where
  | pending
  | inProgress
  | completed
  | failed
deriving DecidableEq, Repr

/-- The `Task` dataclass: id, description, status, result, retry_count,
max_retries (default 3), dependencies, failure_history. -/
structure Task where
  id : String
  description : String
  status : TaskStatus := TaskStatus.pending
  result : String := ""
  retry_count : Nat := 0
  max_retries : Nat := 3
  dependencies : List String := []
  failure_history : List String := []
deriving DecidableEq, Repr

/-- Python `dict` lookup (`self.tasks.get(task_id)` / `self.tasks[task_id]`),
modelled on an insertion-ordered association list. -/
def dictGet? : List (String × Task) → String → Option Task
  | [], _ => none
  | p :: rest, k => if p.1 = k then some p.2 else dictGet? rest k

/-- Python `dict` store (`self.tasks[task_id] = task`): replaces the value at
an existing key in place, otherwise appends at the end (insertion order). -/
def dictInsert : List (String × Task) → String → Task → List (String × Task)
  | [], k, v => [(k, v)]
  | p :: rest, k, v => if p.1 = k then (k, v) :: rest else p :: dictInsert rest k v

/-- The mutable state of `TaskManager`: the `tasks` dict and the
`task_order` list. -/
structure TaskManagerState where
  tasks : List (String × Task)
  task_order : List String
deriving DecidableEq, Repr

/-- The empty registry (`TaskManager.__init__` / `reset`). -/
def emptyState : TaskManagerState := { tasks := [], task_order := [] }

/-- One dependency check inside `get_all_ready_tasks`: a dependency id
absent from the registry is ignored (treated as satisfied); otherwise the
dependency task must be COMPLETED. -/
def dep_ok (s : TaskManagerState) (dep_id : String) : Bool :=
  match dictGet? s.tasks dep_id with
  | none => true
  | some d => d.status == TaskStatus.completed

/-- The `deps_satisfied` loop of `get_all_ready_tasks`. -/
def deps_satisfied (s : TaskManagerState) (task : Task) : Bool :=
  task.dependencies.all (dep_ok s)

/-- `TaskManager.get_all_ready_tasks`: all tasks in `task_order` whose status
is PENDING and whose dependencies are all satisfied. -/
def get_all_ready_tasks (s : TaskManagerState) : List Task :=
  s.task_order.filterMap fun task_id =>
    match dictGet? s.tasks task_id with
    | none => none
    | some task =>
      if task.status == TaskStatus.pending && deps_satisfied s task then some task
      else none

/-- `TaskManager.mark_task_in_progress`. -/
def mark_task_in_progress (s : TaskManagerState) (task_id : String) :
    TaskManagerState × String :=
  match dictGet? s.tasks task_id with
  | none => (s, "Error: Task " ++ task_id ++ " does not exist")
  | some t =>
    ({ s with tasks := dictInsert s.tasks task_id { t with status := TaskStatus.inProgress } },
     "Task " ++ task_id ++ " has started execution")

/-- Python’s `"=" * 40` separator used by `_format_todo_list`. -/
def eqBar40 : String := String.mk (List.replicate 40 '=')

/-- Python’s `"=" * 50` separator used by `get_final_summary`. -/
def eqBar50 : String := String.mk (List.replicate 50 '=')

/-- Python’s `"-" * 40` separator used by `get_final_summary`. -/
def dashBar40 : String := String.mk (List.replicate 40 '-')

/-- Status icon map of `_format_todo_list`. -/
def status_icon : TaskStatus → String
  | TaskStatus.pending => "⬜"
  | TaskStatus.inProgress => "🔄"
  | TaskStatus.completed => "✅"
  | TaskStatus.failed => "❌"

/-- Python's `f"{completed/total*100:.1f}"`: one-decimal rendering of the
percentage.  Python formats the IEEE double nearest to the exact ratio with
round-half-to-even; this models the same rounding on the exact rational,
which agrees on all realistic task counts. -/
def formatPct1 (completed total : Nat) : String :=
  let num := completed * 1000
  let q := num / total
  let r := num % total
  let tenths :=
    if 2 * r > total then q + 1
    else if 2 * r < total then q
    else if q % 2 = 1 then q + 1 else q
  toString (tenths / 10) ++ "." ++ toString (tenths % 10)

/-- One task line of `_format_todo_list`. -/
def todo_line (task : Task) : String :=
  let line := status_icon task.status ++ " [" ++ task.id ++ "] " ++ task.description
  let line := if task.dependencies.isEmpty then line
    else line ++ " (Dependencies: " ++ String.intercalate ", " task.dependencies ++ ")"
  if task.retry_count > 0 then
    line ++ " [Retry: " ++ toString task.retry_count ++ "/" ++ toString task.max_retries ++ "]"
  else line

/-- `TaskManager._format_todo_list`.  (Lookups of `task_order` ids that are
absent from `tasks` would raise `KeyError` in Python; they are skipped here
and never occur in reachable states.) -/
def format_todo_list (s : TaskManagerState) : String :=
  if s.tasks.isEmpty then "Task list is empty"
  else
    let taskLines := s.task_order.filterMap fun task_id =>
      (dictGet? s.tasks task_id).map todo_line
    let completed := (s.tasks.filter fun p => p.2.status == TaskStatus.completed).length
    let total := s.tasks.length
    let progress :=
      if total > 0 then
        "Progress: " ++ toString completed ++ "/" ++ toString total ++
          " (" ++ formatPct1 completed total ++ "%)"
      else "Progress: 0/0"
    String.intercalate "\n"
      (["Task List (Todo List)", eqBar40] ++
       taskLines ++
       [eqBar40, progress])

/-- `TaskManager.mark_task_complete`. -/
def mark_task_complete (s : TaskManagerState) (task_id : String) (result : String) :
    TaskManagerState × String :=
  match dictGet? s.tasks task_id with
  | none => (s, "Error: Task " ++ task_id ++ " does not exist")
  | some t =>
    let t' := { t with status := TaskStatus.completed, result := result }
    let s' := { s with tasks := dictInsert s.tasks task_id t' }
    (s', "Task [" ++ task_id ++ "] completed\n" ++ format_todo_list s')

/-- The enumerated failure-history lines of `mark_task_failed`. -/
def failure_lines (history : List String) : List String :=
  history.enum.map fun p => "  Attempt " ++ toString (p.1 + 1) ++ ": " ++ p.2

/-- `TaskManager.mark_task_failed`: appends the reason to `failure_history`,
increments `retry_count`, then marks the task FAILED when
`retry_count >= max_retries` and PENDING (retry) otherwise. -/
def mark_task_failed (s : TaskManagerState) (task_id : String) (reason : String) :
    TaskManagerState × String :=
  match dictGet? s.tasks task_id with
  | none => (s, "Error: Task " ++ task_id ++ " does not exist")
  | some t =>
    let history := t.failure_history ++ [reason]
    let retry := t.retry_count + 1
    if retry ≥ t.max_retries then
      let t' := { t with failure_history := history, retry_count := retry,
                         status := TaskStatus.failed }
      ({ s with tasks := dictInsert s.tasks task_id t' },
       "Task [" ++ task_id ++ "] has reached maximum retry attempts (" ++
         toString t.max_retries ++ ")\nFailure history:\n" ++
         String.intercalate "\n" (failure_lines history))
    else
      let t' := { t with failure_history := history, retry_count := retry,
                         status := TaskStatus.pending }
      ({ s with tasks := dictInsert s.tasks task_id t' },
       "Task [" ++ task_id ++ "] execution failed, preparing retry attempt " ++
         toString (retry + 1) ++ "\nFailure reason: " ++ reason ++
         "\nRemaining retries: " ++ toString (t.max_retries - retry))

/-- `TaskManager.is_all_completed`: `all` over the dict's values. -/
def is_all_completed (s : TaskManagerState) : Bool :=
  s.tasks.all fun p => p.2.status == TaskStatus.completed

/-- `TaskManager.has_failed_tasks`: `any` over the dict's values. -/
def has_failed_tasks (s : TaskManagerState) : Bool :=
  s.tasks.any fun p => p.2.status == TaskStatus.failed

/-- The final verdict line of `get_final_summary` (the `if/elif/else` at its
end): all completed / some failed / still in progress. -/
def final_verdict (s : TaskManagerState) : String :=
  if is_all_completed s then "All tasks completed successfully!"
  else if has_failed_tasks s then "⚠️ Some tasks failed. Please review the failure reasons."
  else "Tasks in progress..."

/-- Detail lines for one completed task in `get_final_summary`: the first
five lines of its result, with a truncation indicator. -/
def completed_detail (task : Task) : List String :=
  ("  [" ++ task.id ++ "] " ++ task.description) ::
  (if task.result == "" then []
   else
     let result_lines := task.result.splitOn "\n"
     (result_lines.take 5).map (fun rl => "      → " ++ rl) ++
     (if result_lines.length > 5 then
        ["      ... (" ++ toString (result_lines.length - 5) ++ " more lines)"]
      else []))

/-- Detail lines for one failed task in `get_final_summary`. -/
def failed_detail (task : Task) : List String :=
  ["  [" ++ task.id ++ "] " ++ task.description,
   "      Retry count: " ++ toString task.retry_count] ++
  (match task.failure_history.getLast? with
   | some last => ["      Last failure reason: " ++ last]
   | none => [])

/-- `TaskManager.get_final_summary`: the textual execution report.  Tasks are
scanned in `task_order`; only COMPLETED and FAILED tasks get detail lines. -/
def get_final_summary (s : TaskManagerState) : String :=
  let ordered := s.task_order.filterMap fun task_id => dictGet? s.tasks task_id
  let completed_tasks := ordered.filter fun t => t.status == TaskStatus.completed
  let failed_tasks := ordered.filter fun t => t.status == TaskStatus.failed
  let lines :=
    [eqBar50,
     "📊 Task Execution Summary Report",
     eqBar50,
     "",
     "✅ Completed Tasks: " ++ toString completed_tasks.length ++ "/" ++
       toString s.tasks.length,
     dashBar40] ++
    (completed_tasks.flatMap completed_detail) ++
    (if failed_tasks.isEmpty then []
     else ["", "❌ Failed Tasks: " ++ toString failed_tasks.length,
           dashBar40] ++
          failed_tasks.flatMap failed_detail) ++
    ["", eqBar50, final_verdict s]
  String.intercalate "\n" lines

/-! ### Bulk creation (`create_todo_list`)

`create_todo_list` feeds its string argument to `json_repair.loads` and
iterates the result.  Parsing itself is external to the repository, so its
outcome is the embedding's input: a parse failure, a parsed value that
cannot be iterated (raising after the registry is cleared), or a list of
elements, each either a record (`dict` with optional `id`, `description`,
`dependencies`) or a value on which `.get` raises. -/

/-- One element of the parsed task list. -/
inductive Item where
  /-- A record; `id` is the already-stringified value of the `"id"` key. -/
  | record (id : Option String) (description : Option String)
           (dependencies : Option (List String))
  /-- An element without `.get` (e.g. a bare string): processing it raises,
  which `create_todo_list` turns into a "Failed to create task list" error. -/
  | bad (e : String)
deriving DecidableEq, Repr

/-- Result of `json_repair.loads` on the raw input. -/
inductive ParseOutcome where
  /-- `json.loads` raised; caught as "JSON parsing failed". -/
  | parseError (e : String)
  /-- Parsing succeeded but the value is not iterable: the `for` loop raises
  after `tasks.clear()` / `task_order.clear()` have already run. -/
  | notIterable (e : String)
  /-- Parsing produced a list of elements. -/
  | items (xs : List Item)
deriving DecidableEq, Repr

/-- The task-construction loop of `create_todo_list`, run after the registry
has been cleared.  A missing `"id"` defaults to `str(len(tasks) + 1)`; a bad
element aborts the loop with the current (partially rebuilt) state. -/
def createLoop (s : TaskManagerState) : List Item → TaskManagerState × String
  | [] => (s, format_todo_list s)
  | Item.bad e :: _ => (s, "Error: Failed to create task list - " ++ e)
  | Item.record id description dependencies :: rest =>
    let task_id := id.getD (toString (s.tasks.length + 1))
    let task : Task := { id := task_id, description := description.getD "",
                         dependencies := dependencies.getD [] }
    createLoop { tasks := dictInsert s.tasks task_id task,
                 task_order := s.task_order ++ [task_id] } rest

/-- `TaskManager.create_todo_list`.  Note the order of effects in the source:
the parse happens first (a parse error leaves the state untouched), but the
registry is cleared before any element is validated, so later failures leave
a cleared or partially repopulated registry. -/
def create_todo_list (s : TaskManagerState) (input : ParseOutcome) :
    TaskManagerState × String :=
  match input with
  | ParseOutcome.parseError e => (s, "Error: JSON parsing failed - " ++ e)
  | ParseOutcome.notIterable e => (emptyState, "Error: Failed to create task list - " ++ e)
  | ParseOutcome.items xs => createLoop emptyState xs

/-! ### Shared message board (`SharedMessageBoard`)

All board operations run under a single `asyncio.Lock`, so a run of the
board is a sequence of serialized `post` calls; the lock itself needs no
model beyond that serialization. -/

/-- One entry of `SharedMessageBoard._messages`. -/
structure Message where
  worker_id : String
  task : String
  message : String
  status : String
  timestamp : String
deriving DecidableEq, Repr

/-- The arguments of one `SharedMessageBoard.post` call (`timestamp` is
`time.strftime("%H:%M:%S")`, an external input). -/
structure PostArgs where
  worker_id : String
  task_desc : String
  message : String
  status : String := "completed"
  timestamp : String
deriving DecidableEq, Repr

/-- `SharedMessageBoard.post`: drops every previous message of the same
worker whose status is not `"completed"`, then appends the new message with
its body truncated to 500 characters (`message[:500]`). -/
def post (board : List Message) (a : PostArgs) : List Message :=
  (board.filter fun m => !(m.worker_id == a.worker_id && m.status != "completed")) ++
  [{ worker_id := a.worker_id, task := a.task_desc,
     message := String.mk (a.message.data.take 500), status := a.status,
     timestamp := a.timestamp }]

/-- A board produced by a serialized sequence of `post` calls starting from
the empty board of `SharedMessageBoard.__init__`. -/
def runPosts (posts : List PostArgs) : List Message :=
  posts.foldl post []

/-! ### Wave scheduler (`execute_all_tasks_parallel`)

The worker executor is an external capability; it is abstracted as an
oracle mapping (wave number, task id) to an outcome.  `asyncio.gather(...,
return_exceptions=True)` returns results in dispatch order, and the result
loop applies them in that order. -/

/-- Outcome of one dispatched worker invocation: `_execute_worker_with_board`
returns `(success, output)`, or the invocation surfaces an exception through
`asyncio.gather(..., return_exceptions=True)`. -/
inductive Outcome where
  | success (output : String)
  | failure (output : String)
  | exn (msg : String)
deriving DecidableEq, Repr

/-- Application of one gathered result (the body of the `for i, result in
enumerate(results)` loop): exceptions become `mark_task_failed` with
`f"异常: {result}"`, failures `mark_task_failed`, successes
`mark_task_complete`. -/
def applyResult (s : TaskManagerState) (pr : String × Outcome) : TaskManagerState :=
  match pr.2 with
  | Outcome.success output => (mark_task_complete s pr.1 output).1
  | Outcome.failure output => (mark_task_failed s pr.1 output).1
  | Outcome.exn msg => (mark_task_failed s pr.1 ("异常: " ++ msg)).1

/-- The result-application loop of one wave. -/
def processResults (s : TaskManagerState) (results : List (String × Outcome)) :
    TaskManagerState :=
  results.foldl applyResult s

/-- One wave: mark every ready task IN_PROGRESS, dispatch all of them, then
apply the gathered results in dispatch order. -/
def runWave (oracle : Nat → String → Outcome) (wave : Nat)
    (s : TaskManagerState) (ready : List Task) : TaskManagerState :=
  let s1 := ready.foldl (fun acc t => (mark_task_in_progress acc t.id).1) s
  processResults s1 (ready.map fun t => (t.id, oracle wave t.id))

/-- How a scheduling run ended, matching the branch taken by the source: the
three logged `break` reasons, or falling off the end of
`for wave in range(1, max_waves + 1)`. -/
inductive ExitKind where
  | allCompleted
  | someFailed
  | deadlock
  | capExhausted
deriving DecidableEq, Repr

/-- `max_waves = 15` in `execute_all_tasks_parallel`. -/
def max_waves : Nat := 15

/-- The wave loop.  `fuel` is the number of remaining iterations of
`for wave in range(1, max_waves + 1)`; the returned `Nat` is the wave index
at which the run stopped (for later reasoning about the trace). -/
def schedLoop (oracle : Nat → String → Outcome) :
    Nat → Nat → TaskManagerState → TaskManagerState × ExitKind × Nat
  | 0, wave, s => (s, ExitKind.capExhausted, wave)
  | fuel + 1, wave, s =>
    let ready := get_all_ready_tasks s
    if ready.isEmpty then
      (s,
       (if is_all_completed s then ExitKind.allCompleted
        else if has_failed_tasks s then ExitKind.someFailed
        else ExitKind.deadlock),
       wave)
    else
      schedLoop oracle fuel (wave + 1) (runWave oracle wave s ready)

/-- The observable outcome of `execute_all_tasks_parallel`: final registry
state, exit classification, exit wave, and the returned report. -/
structure RunResult where
  state : TaskManagerState
  exitKind : ExitKind
  exitWave : Nat
  report : String
deriving DecidableEq, Repr

/-- `execute_all_tasks_parallel`: run waves until a break or the wave cap,
then return `get_final_summary()` of the final state. -/
def execute_all_tasks_parallel (oracle : Nat → String → Outcome)
    (s : TaskManagerState) : RunResult :=
  let r := schedLoop oracle max_waves 1 s
  { state := r.1, exitKind := r.2.1, exitWave := r.2.2,
    report := get_final_summary r.1 }

/-! ### Well-formedness and invariants -/

/-- Keys of the task dict are pairwise distinct (always true of a Python
`dict`; maintained here by `dictInsert`). -/
def dictKeysNodup (d : List (String × Task)) : Prop := (d.map Prod.fst).Nodup

/-- Well-formedness of a registry state: no duplicate insertion-order
entries, dict keys distinct, every task's `id` field equals its key, and
every ordered id is present in the dict. -/
def WF (s : TaskManagerState) : Prop :=
  s.task_order.Nodup ∧
  dictKeysNodup s.tasks ∧
  (∀ p ∈ s.tasks, p.2.id = p.1) ∧
  (∀ k ∈ s.task_order, (dictGet? s.tasks k).isSome)

/-- Per-task retry invariant: `retry_count` bounded by `max_retries`, PENDING
tasks strictly below the bound, and a task at the bound is FAILED. -/
def InvTask (t : Task) : Prop :=
  t.retry_count ≤ t.max_retries ∧
  (t.status = TaskStatus.pending → t.retry_count < t.max_retries) ∧
  (t.retry_count = t.max_retries → t.status = TaskStatus.failed)

/-- Mid-wave invariant: every task satisfies `InvTask`, and an IN_PROGRESS
task is one of the still-unapplied dispatched ids `todo`, strictly below its
retry bound. -/
def MidInv (todo : List String) (s : TaskManagerState) : Prop :=
  ∀ p ∈ s.tasks, InvTask p.2 ∧
    (p.2.status = TaskStatus.inProgress →
      p.1 ∈ todo ∧ p.2.retry_count < p.2.max_retries)

/-- Between waves no task is IN_PROGRESS and every task satisfies
`InvTask`. -/
def GInv (s : TaskManagerState) : Prop := MidInv [] s

instance (s : TaskManagerState) : Decidable (WF s) := by
  unfold WF dictKeysNodup
  infer_instance

instance (t : Task) : Decidable (InvTask t) := by
  unfold InvTask
  infer_instance

instance (todo : List String) (s : TaskManagerState) : Decidable (MidInv todo s) := by
  unfold MidInv
  infer_instance

instance (s : TaskManagerState) : Decidable (GInv s) := by
  unfold GInv
  infer_instance

/-! ### Concrete inputs used by counterexamples and witnesses -/

/-- `mkItems l`: a parsed task list of plain records with explicit ids and
descriptions and no dependencies. -/
def mkItems (l : List (String × String)) : List Item :=
  l.map fun p => Item.record (some p.1) (some p.2) none

/-- The task `create_todo_list` builds from a record with id `k`,
description `d` and no dependencies. -/
def mkRecordTask (k d : String) : Task := { id := k, description := d }

/-- A registry holding one pending task. -/
def sampleOne : TaskManagerState :=
  { tasks := [("1", { id := "1", description := "a" })], task_order := ["1"] }

/-- A registry holding one COMPLETED task. -/
def completedState : TaskManagerState :=
  { tasks := [("1", { id := "1", description := "a",
                      status := TaskStatus.completed, result := "r" })],
    task_order := ["1"] }

/-- A mixed registry: a completed task, a pending task depending on it, and
a pending task with an unknown dependency id. -/
def sampleMixed : TaskManagerState :=
  { tasks := [("1", { id := "1", description := "a", status := TaskStatus.completed }),
              ("2", { id := "2", description := "b", dependencies := ["1"] }),
              ("3", { id := "3", description := "c", dependencies := ["missing"] })],
    task_order := ["1", "2", "3"] }

/-- A task list whose input duplicates the id `"1"`. -/
def dupItems : List Item := mkItems [("1", "a"), ("1", "b")]

/-- The registry `create_todo_list` installs from `dupItems`: the dict maps
`"1"` to the last record, but `task_order` is `["1", "1"]`. -/
def dupState : TaskManagerState :=
  (create_todo_list emptyState (ParseOutcome.items dupItems)).1

/-- An executor that always fails. -/
def failOracle : Nat → String → Outcome := fun _ _ => Outcome.failure "boom"

/-- The scheduling run on the duplicated-id registry with an always-failing
executor: the duplicate ordered entry dispatches the task twice per wave. -/
def dupRun : RunResult := execute_all_tasks_parallel failOracle dupState

/-- An executor that fails during the first two waves and succeeds from the
third on (Scenario C of the spec: fails twice, then succeeds). -/
def twoFailOracle : Nat → String → Outcome := fun wave _ =>
  if wave ≥ 3 then Outcome.success "done" else Outcome.failure ("f" ++ toString wave)

/-- A single-task registry for Scenario C. -/
def scenCState : TaskManagerState :=
  (create_todo_list emptyState (ParseOutcome.items (mkItems [("1", "a")]))).1

/-- The Scenario C run. -/
def scenCRun : RunResult := execute_all_tasks_parallel twoFailOracle scenCState

/-- Run A input (cap exhaustion): a five-task dependency chain plus a
two-task dependency cycle. -/
def itemsA : List Item :=
  [Item.record (some "1") (some "d1") none,
   Item.record (some "2") (some "d2") (some ["1"]),
   Item.record (some "3") (some "d3") (some ["2"]),
   Item.record (some "4") (some "d4") (some ["3"]),
   Item.record (some "5") (some "d5") (some ["4"]),
   Item.record (some "16") (some "d16") (some ["17"]),
   Item.record (some "17") (some "d17") (some ["16"])]

/-- Run B input (deadlock): the same seven tasks, but the first five
independent. -/
def itemsB : List Item :=
  [Item.record (some "1") (some "d1") none,
   Item.record (some "2") (some "d2") none,
   Item.record (some "3") (some "d3") none,
   Item.record (some "4") (some "d4") none,
   Item.record (some "5") (some "d5") none,
   Item.record (some "16") (some "d16") (some ["17"]),
   Item.record (some "17") (some "d17") (some ["16"])]

/-- Initial registry of run A. -/
def stateA : TaskManagerState := (create_todo_list emptyState (ParseOutcome.items itemsA)).1

/-- Initial registry of run B. -/
def stateB : TaskManagerState := (create_todo_list emptyState (ParseOutcome.items itemsB)).1

/-- Executor for run A: each chain task fails twice and succeeds on its
third dispatch (waves 3k-2 and 3k-1 fail, wave 3k succeeds). -/
def oracleA : Nat → String → Outcome := fun wave _ =>
  if wave % 3 == 0 then Outcome.success "ok" else Outcome.failure "try again"

/-- Executor for run B: always succeeds with the same output as run A. -/
def oracleB : Nat → String → Outcome := fun _ _ => Outcome.success "ok"

/-- Run A: the ready set stays non-empty through all 15 waves, so the loop
exhausts the wave cap. -/
def runA : RunResult := execute_all_tasks_parallel oracleA stateA

/-- Run B: every independent task completes in wave 1 and the cyclic pair
deadlocks the run in wave 2. -/
def runB : RunResult := execute_all_tasks_parallel oracleB stateB

/-- A concrete post sequence: worker `w1` posts an in-progress update, then
its terminal completed message. -/
def c9posts : List PostArgs :=
  [{ worker_id := "w1", task_desc := "t1", message := "hello",
     status := "in_progress", timestamp := "00:00:01" },
   { worker_id := "w1", task_desc := "t1", message := "done",
     status := "completed", timestamp := "00:00:02" }]

/-- A later post from the same worker (a new in-progress update). -/
def c9more : List PostArgs :=
  [{ worker_id := "w1", task_desc := "t2", message := "next",
     status := "in_progress", timestamp := "00:00:03" }]

/-- The stored form of the completed message posted in `c9posts`. -/
def c9msg : Message :=
  { worker_id := "w1", task := "t1", message := "done",
    status := "completed", timestamp := "00:00:02" }

/-! ### Association-list (Python dict) lemmas -/

theorem dictGet?_insert (d : List (String × Task)) (k k' : String) (v : Task) :
    dictGet? (dictInsert d k v) k' = if k' = k then some v else dictGet? d k' := by
  induction d with
  | nil =>
    show (if k = k' then some v else dictGet? [] k') = if k' = k then some v else dictGet? [] k'
    by_cases h : k' = k
    · rw [if_pos h.symm, if_pos h]
    · rw [if_neg (fun h' : k = k' => h h'.symm), if_neg h]
  | cons p rest ih =>
    show dictGet? (if p.1 = k then (k, v) :: rest else p :: dictInsert rest k v) k' = _
    by_cases hp : p.1 = k
    · rw [if_pos hp]
      show (if k = k' then some v else dictGet? rest k') =
        if k' = k then some v else (if p.1 = k' then some p.2 else dictGet? rest k')
      by_cases h : k' = k
      · rw [if_pos h.symm, if_pos h]
      · rw [if_neg (fun h' : k = k' => h h'.symm), if_neg h,
            if_neg (fun h' : p.1 = k' => h (hp.symm.trans h').symm)]
    · rw [if_neg hp]
      show (if p.1 = k' then some p.2 else dictGet? (dictInsert rest k v) k') =
        if k' = k then some v else (if p.1 = k' then some p.2 else dictGet? rest k')
      by_cases h : p.1 = k'
      · have hk : ¬ k' = k := fun he => hp (h.trans he)
        rw [if_pos h, if_neg hk, if_pos h]
      · rw [if_neg h, ih, if_neg h]

theorem mem_of_dictGet? {d : List (String × Task)} {k : String} {t : Task}
    (h : dictGet? d k = some t) : (k, t) ∈ d := by
  induction d with
  | nil => simp [dictGet?] at h
  | cons p rest ih =>
    unfold dictGet? at h
    by_cases hp : p.1 = k
    · rw [if_pos hp] at h
      have : p = (k, t) := Prod.ext hp (Option.some_injective _ h)
      exact this ▸ List.mem_cons_self _ _
    · rw [if_neg hp] at h
      exact List.mem_cons_of_mem _ (ih h)

theorem dictGet?_isSome_of_mem_keys {d : List (String × Task)} {k : String}
    (h : k ∈ d.map Prod.fst) : (dictGet? d k).isSome := by
  induction d with
  | nil => simp at h
  | cons p rest ih =>
    unfold dictGet?
    by_cases hp : p.1 = k
    · rw [if_pos hp]; rfl
    · rw [if_neg hp]
      rw [List.map_cons] at h
      rcases List.mem_cons.mp h with h1 | h1
      · exact absurd h1.symm hp
      · exact ih h1

theorem keys_dictInsert_subset {d : List (String × Task)} {k x : String} {v : Task}
    (h : x ∈ (dictInsert d k v).map Prod.fst) : x ∈ d.map Prod.fst ∨ x = k := by
  induction d with
  | nil =>
    unfold dictInsert at h
    rw [List.map_cons] at h
    rcases List.mem_cons.mp h with h1 | h1
    · exact Or.inr h1
    · simp at h1
  | cons p rest ih =>
    unfold dictInsert at h
    by_cases hp : p.1 = k
    · rw [if_pos hp, List.map_cons] at h
      rcases List.mem_cons.mp h with h1 | h1
      · exact Or.inr h1
      · exact Or.inl (by rw [List.map_cons]; exact List.mem_cons_of_mem _ h1)
    · rw [if_neg hp, List.map_cons] at h
      rcases List.mem_cons.mp h with h1 | h1
      · exact Or.inl (by rw [List.map_cons]; exact h1 ▸ List.mem_cons_self _ _)
      · rcases ih h1 with h' | h'
        · exact Or.inl (by rw [List.map_cons]; exact List.mem_cons_of_mem _ h')
        · exact Or.inr h'

theorem dictKeysNodup_insert {d : List (String × Task)} {k : String} {v : Task}
    (h : dictKeysNodup d) : dictKeysNodup (dictInsert d k v) := by
  induction d with
  | nil => simp [dictKeysNodup, dictInsert]
  | cons p rest ih =>
    unfold dictKeysNodup at h ⊢
    rw [List.map_cons, List.nodup_cons] at h
    unfold dictInsert
    by_cases hp : p.1 = k
    · rw [if_pos hp, List.map_cons, List.nodup_cons]
      exact ⟨hp ▸ h.1, h.2⟩
    · rw [if_neg hp, List.map_cons, List.nodup_cons]
      refine ⟨fun hx => ?_, ih h.2⟩
      rcases keys_dictInsert_subset hx with h' | h'
      · exact h.1 h'
      · exact hp h'

theorem mem_dictInsert {d : List (String × Task)} {k : String} {v : Task} {p : String × Task}
    (h : p ∈ dictInsert d k v) : p = (k, v) ∨ p ∈ d := by
  induction d with
  | nil =>
    unfold dictInsert at h
    rcases List.mem_cons.mp h with h1 | h1
    · exact Or.inl h1
    · simp at h1
  | cons q rest ih =>
    unfold dictInsert at h
    by_cases hq : q.1 = k
    · rw [if_pos hq] at h
      rcases List.mem_cons.mp h with h1 | h1
      · exact Or.inl h1
      · exact Or.inr (List.mem_cons_of_mem _ h1)
    · rw [if_neg hq] at h
      rcases List.mem_cons.mp h with h1 | h1
      · exact Or.inr (h1 ▸ List.mem_cons_self _ _)
      · rcases ih h1 with h' | h'
        · exact Or.inl h'
        · exact Or.inr (List.mem_cons_of_mem _ h')

theorem mem_dictInsert_strong {d : List (String × Task)} {k : String} {v : Task}
    {p : String × Task} (hnd : dictKeysNodup d) (h : p ∈ dictInsert d k v) :
    p = (k, v) ∨ (p ∈ d ∧ p.1 ≠ k) := by
  induction d with
  | nil =>
    unfold dictInsert at h
    rcases List.mem_cons.mp h with h1 | h1
    · exact Or.inl h1
    · simp at h1
  | cons q rest ih =>
    unfold dictKeysNodup at hnd
    rw [List.map_cons, List.nodup_cons] at hnd
    unfold dictInsert at h
    by_cases hq : q.1 = k
    · rw [if_pos hq] at h
      rcases List.mem_cons.mp h with h1 | h1
      · exact Or.inl h1
      · refine Or.inr ⟨List.mem_cons_of_mem _ h1, fun hpk => ?_⟩
        exact hnd.1 (hq ▸ hpk ▸ List.mem_map_of_mem Prod.fst h1)
    · rw [if_neg hq] at h
      rcases List.mem_cons.mp h with h1 | h1
      · exact Or.inr ⟨h1 ▸ List.mem_cons_self _ _, h1 ▸ hq⟩
      · rcases ih hnd.2 h1 with h' | h'
        · exact Or.inl h'
        · exact Or.inr ⟨List.mem_cons_of_mem _ h'.1, h'.2⟩

theorem dictGet?_of_mem {d : List (String × Task)} {p : String × Task}
    (hnd : dictKeysNodup d) (h : p ∈ d) : dictGet? d p.1 = some p.2 := by
  induction d with
  | nil => simp at h
  | cons q rest ih =>
    unfold dictKeysNodup at hnd
    rw [List.map_cons, List.nodup_cons] at hnd
    unfold dictGet?
    rcases List.mem_cons.mp h with h1 | h1
    · rw [h1]; simp
    · have hne : ¬ q.1 = p.1 := fun he => hnd.1 (he ▸ List.mem_map_of_mem Prod.fst h1)
      rw [if_neg hne]
      exact ih hnd.2 h1

/-! ### Effects of the mark operations -/

theorem mark_in_progress_order (s : TaskManagerState) (task_id : String) :
    (mark_task_in_progress s task_id).1.task_order = s.task_order := by
  cases h : dictGet? s.tasks task_id <;> simp [mark_task_in_progress, h]

theorem mark_complete_order (s : TaskManagerState) (task_id result : String) :
    (mark_task_complete s task_id result).1.task_order = s.task_order := by
  cases h : dictGet? s.tasks task_id <;> simp [mark_task_complete, h]

theorem mark_failed_order (s : TaskManagerState) (task_id reason : String) :
    (mark_task_failed s task_id reason).1.task_order = s.task_order := by
  cases h : dictGet? s.tasks task_id with
  | none => simp [mark_task_failed, h]
  | some t =>
    by_cases hb : t.retry_count + 1 ≥ t.max_retries <;>
      simp [mark_task_failed, h, hb]

theorem mark_in_progress_get_ne {s : TaskManagerState} {task_id k : String}
    (hne : k ≠ task_id) :
    dictGet? (mark_task_in_progress s task_id).1.tasks k = dictGet? s.tasks k := by
  cases h : dictGet? s.tasks task_id with
  | none => simp [mark_task_in_progress, h]
  | some t => simp [mark_task_in_progress, h, dictGet?_insert, hne]

theorem mark_complete_get_ne {s : TaskManagerState} {task_id k : String} {result : String}
    (hne : k ≠ task_id) :
    dictGet? (mark_task_complete s task_id result).1.tasks k = dictGet? s.tasks k := by
  cases h : dictGet? s.tasks task_id with
  | none => simp [mark_task_complete, h]
  | some t => simp [mark_task_complete, h, dictGet?_insert, hne]

theorem mark_failed_get_ne {s : TaskManagerState} {task_id k : String} {reason : String}
    (hne : k ≠ task_id) :
    dictGet? (mark_task_failed s task_id reason).1.tasks k = dictGet? s.tasks k := by
  cases h : dictGet? s.tasks task_id with
  | none => simp [mark_task_failed, h]
  | some t =>
    by_cases hb : t.retry_count + 1 ≥ t.max_retries <;>
      simp [mark_task_failed, h, hb, dictGet?_insert, hne]

theorem mark_in_progress_get_self {s : TaskManagerState} {task_id : String} {t : Task}
    (h : dictGet? s.tasks task_id = some t) :
    dictGet? (mark_task_in_progress s task_id).1.tasks task_id =
      some { t with status := TaskStatus.inProgress } := by
  simp [mark_task_in_progress, h, dictGet?_insert]

theorem mark_complete_get_self {s : TaskManagerState} {task_id result : String} {t : Task}
    (h : dictGet? s.tasks task_id = some t) :
    dictGet? (mark_task_complete s task_id result).1.tasks task_id =
      some { t with status := TaskStatus.completed, result := result } := by
  simp [mark_task_complete, h, dictGet?_insert]

theorem mark_failed_get_self {s : TaskManagerState} {task_id reason : String} {t : Task}
    (h : dictGet? s.tasks task_id = some t) :
    dictGet? (mark_task_failed s task_id reason).1.tasks task_id =
      some (if t.retry_count + 1 ≥ t.max_retries then
              { t with failure_history := t.failure_history ++ [reason],
                       retry_count := t.retry_count + 1, status := TaskStatus.failed }
            else
              { t with failure_history := t.failure_history ++ [reason],
                       retry_count := t.retry_count + 1, status := TaskStatus.pending }) := by
  by_cases hb : t.retry_count + 1 ≥ t.max_retries <;>
    simp [mark_task_failed, h, hb, dictGet?_insert]

/-! ### Preservation of well-formedness -/

theorem WF_dictInsert {s : TaskManagerState} {k : String} {v : Task}
    (h : WF s) (hid : v.id = k) :
    WF { s with tasks := dictInsert s.tasks k v } := by
  obtain ⟨h1, h2, h3, h4⟩ := h
  refine ⟨h1, dictKeysNodup_insert h2, ?_, ?_⟩
  · intro p hp
    rcases mem_dictInsert hp with h' | h'
    · rw [h']; exact hid
    · exact h3 p h'
  · intro k' hk'
    show (dictGet? (dictInsert s.tasks k v) k').isSome
    rw [dictGet?_insert]
    by_cases he : k' = k
    · rw [if_pos he]; rfl
    · rw [if_neg he]; exact h4 k' hk'

theorem WF_mark_in_progress {s : TaskManagerState} (h : WF s) (task_id : String) :
    WF (mark_task_in_progress s task_id).1 := by
  cases hg : dictGet? s.tasks task_id with
  | none => simpa [mark_task_in_progress, hg] using h
  | some t =>
    have hid : t.id = task_id := (h.2.2.1 (task_id, t) (mem_of_dictGet? hg))
    simpa [mark_task_in_progress, hg] using
      WF_dictInsert (v := { t with status := TaskStatus.inProgress }) h hid

theorem WF_mark_complete {s : TaskManagerState} (h : WF s) (task_id result : String) :
    WF (mark_task_complete s task_id result).1 := by
  cases hg : dictGet? s.tasks task_id with
  | none => simpa [mark_task_complete, hg] using h
  | some t =>
    have hid : t.id = task_id := (h.2.2.1 (task_id, t) (mem_of_dictGet? hg))
    simpa [mark_task_complete, hg] using
      WF_dictInsert (v := { t with status := TaskStatus.completed, result := result }) h hid

theorem WF_mark_failed {s : TaskManagerState} (h : WF s) (task_id reason : String) :
    WF (mark_task_failed s task_id reason).1 := by
  cases hg : dictGet? s.tasks task_id with
  | none => simpa [mark_task_failed, hg] using h
  | some t =>
    have hid : t.id = task_id := (h.2.2.1 (task_id, t) (mem_of_dictGet? hg))
    by_cases hb : t.retry_count + 1 ≥ t.max_retries
    · have hwf := WF_dictInsert (v := { t with failure_history := t.failure_history ++ [reason], retry_count := t.retry_count + 1, status := TaskStatus.failed }) h hid
      simpa [mark_task_failed, hg, hb] using hwf
    · have hwf := WF_dictInsert (v := { t with failure_history := t.failure_history ++ [reason], retry_count := t.retry_count + 1, status := TaskStatus.pending }) h hid
      simpa [mark_task_failed, hg, hb] using hwf

theorem WF_applyResult {s : TaskManagerState} (h : WF s) (pr : String × Outcome) :
    WF (applyResult s pr) := by
  cases pr with
  | mk id oc =>
    cases oc with
    | success output => exact WF_mark_complete h id output
    | failure output => exact WF_mark_failed h id output
    | exn msg => exact WF_mark_failed h id _

theorem WF_processResults {results : List (String × Outcome)} :
    ∀ {s : TaskManagerState}, WF s → WF (processResults s results) := by
  induction results with
  | nil => intro s h; exact h
  | cons pr rest ih =>
    intro s h
    exact ih (WF_applyResult h pr)

theorem WF_foldl_mark {ready : List Task} :
    ∀ {s : TaskManagerState}, WF s →
      WF (ready.foldl (fun acc t => (mark_task_in_progress acc t.id).1) s) := by
  induction ready with
  | nil => intro s h; exact h
  | cons t rest ih =>
    intro s h
    exact ih (WF_mark_in_progress h t.id)

theorem WF_runWave {s : TaskManagerState} (h : WF s) (oracle : Nat → String → Outcome)
    (wave : Nat) (ready : List Task) : WF (runWave oracle wave s ready) :=
  WF_processResults (WF_foldl_mark h)

theorem WF_schedLoop (oracle : Nat → String → Outcome) :
    ∀ (fuel wave : Nat) {s : TaskManagerState}, WF s →
      WF (schedLoop oracle fuel wave s).1 := by
  intro fuel
  induction fuel with
  | zero => intro wave s h; exact h
  | succ n ih =>
    intro wave s h
    show WF (schedLoop oracle (n + 1) wave s).1
    rw [schedLoop]
    by_cases hr : (get_all_ready_tasks s).isEmpty
    · simp [hr]; exact h
    · simp [hr]
      exact ih (wave + 1) (WF_runWave h oracle wave _)

/-! ### Keys untouched by a wave -/

theorem applyResult_get_untouched {s : TaskManagerState} {pr : String × Outcome}
    {k : String} (hne : pr.1 ≠ k) :
    dictGet? (applyResult s pr).tasks k = dictGet? s.tasks k := by
  cases pr with
  | mk id oc =>
    cases oc with
    | success output => exact mark_complete_get_ne (Ne.symm hne)
    | failure output => exact mark_failed_get_ne (Ne.symm hne)
    | exn msg => exact mark_failed_get_ne (Ne.symm hne)

theorem processResults_get_untouched {results : List (String × Outcome)} {k : String} :
    ∀ {s : TaskManagerState}, (∀ pr ∈ results, pr.1 ≠ k) →
      dictGet? (processResults s results).tasks k = dictGet? s.tasks k := by
  induction results with
  | nil => intro s _; rfl
  | cons pr rest ih =>
    intro s h
    have h1 : pr.1 ≠ k := h pr (List.mem_cons_self _ _)
    calc dictGet? (processResults (applyResult s pr) rest).tasks k
        = dictGet? (applyResult s pr).tasks k :=
          ih (fun q hq => h q (List.mem_cons_of_mem _ hq))
      _ = dictGet? s.tasks k := applyResult_get_untouched h1

theorem foldl_mark_get_untouched {ready : List Task} {k : String} :
    ∀ {s : TaskManagerState}, (∀ t ∈ ready, t.id ≠ k) →
      dictGet? (ready.foldl (fun acc t => (mark_task_in_progress acc t.id).1) s).tasks k =
        dictGet? s.tasks k := by
  induction ready with
  | nil => intro s _; rfl
  | cons t rest ih =>
    intro s h
    have h1 : t.id ≠ k := h t (List.mem_cons_self _ _)
    calc dictGet? (rest.foldl (fun acc t => (mark_task_in_progress acc t.id).1)
            (mark_task_in_progress s t.id).1).tasks k
        = dictGet? (mark_task_in_progress s t.id).1.tasks k :=
          ih (fun q hq => h q (List.mem_cons_of_mem _ hq))
      _ = dictGet? s.tasks k := mark_in_progress_get_ne (fun he => h1 he.symm)

theorem runWave_get_untouched {s : TaskManagerState} {ready : List Task} {k : String}
    (h : ∀ t ∈ ready, t.id ≠ k) (oracle : Nat → String → Outcome) (wave : Nat) :
    dictGet? (runWave oracle wave s ready).tasks k = dictGet? s.tasks k := by
  unfold runWave
  rw [processResults_get_untouched, foldl_mark_get_untouched h]
  intro pr hpr
  rcases List.mem_map.mp hpr with ⟨t, ht, hpt⟩
  rw [← hpt]
  exact h t ht

/-! ### Ready-set characterization -/

theorem mem_get_all_ready_tasks {s : TaskManagerState} {t : Task} :
    t ∈ get_all_ready_tasks s ↔
      ∃ tid ∈ s.task_order, dictGet? s.tasks tid = some t ∧
        t.status = TaskStatus.pending ∧ deps_satisfied s t = true := by
  unfold get_all_ready_tasks
  rw [List.mem_filterMap]
  constructor
  · rintro ⟨tid, htid, hf⟩
    refine ⟨tid, htid, ?_⟩
    cases hg : dictGet? s.tasks tid with
    | none => rw [hg] at hf; exact absurd hf (by simp)
    | some task =>
      rw [hg] at hf
      have hf' : (if (task.status == TaskStatus.pending && deps_satisfied s task) = true
          then some task else none) = some t := hf
      by_cases hc : (task.status == TaskStatus.pending && deps_satisfied s task) = true
      · rw [if_pos hc] at hf'
        obtain rfl : task = t := Option.some_injective _ hf'
        rw [Bool.and_eq_true, beq_iff_eq] at hc
        exact ⟨rfl, hc.1, hc.2⟩
      · rw [if_neg hc] at hf'
        exact absurd hf' (by simp)
  · rintro ⟨tid, htid, hg, hstat, hdeps⟩
    exact ⟨tid, htid, by rw [hg]; simp [hstat, hdeps]⟩

theorem filterMap_ids_sublist (f : String → Option Task)
    (hf : ∀ a t, f a = some t → t.id = a) :
    ∀ l : List String, ((l.filterMap f).map Task.id).Sublist l := by
  intro l
  induction l with
  | nil => simp
  | cons a l ih =>
    cases hfa : f a with
    | none =>
      rw [List.filterMap_cons_none hfa]
      exact ih.cons a
    | some t =>
      rw [List.filterMap_cons_some hfa, List.map_cons, hf a t hfa]
      exact ih.cons₂ a

theorem ready_ids_sublist {s : TaskManagerState}
    (hid : ∀ p ∈ s.tasks, p.2.id = p.1) :
    ((get_all_ready_tasks s).map Task.id).Sublist s.task_order := by
  apply filterMap_ids_sublist
  intro a t hf
  cases hg : dictGet? s.tasks a with
  | none => rw [hg] at hf; exact absurd hf (by simp)
  | some task =>
    rw [hg] at hf
    have hf' : (if (task.status == TaskStatus.pending && deps_satisfied s task) = true
        then some task else none) = some t := hf
    by_cases hc : (task.status == TaskStatus.pending && deps_satisfied s task) = true
    · rw [if_pos hc] at hf'
      obtain rfl : task = t := Option.some_injective _ hf'
      exact hid (a, task) (mem_of_dictGet? hg)
    · rw [if_neg hc] at hf'
      exact absurd hf' (by simp)

theorem ready_mem_pending {s : TaskManagerState} {t : Task}
    (h : t ∈ get_all_ready_tasks s) : t.status = TaskStatus.pending := by
  rcases mem_get_all_ready_tasks.mp h with ⟨tid, _, _, hstat, _⟩
  exact hstat

theorem terminal_not_ready {s : TaskManagerState} {k : String} {t : Task}
    (hid : ∀ p ∈ s.tasks, p.2.id = p.1)
    (hg : dictGet? s.tasks k = some t) (hst : t.status ≠ TaskStatus.pending) :
    ∀ t' ∈ get_all_ready_tasks s, t'.id ≠ k := by
  intro t' ht' he
  rcases mem_get_all_ready_tasks.mp ht' with ⟨tid, _, hg', hstat, _⟩
  have hid' : t'.id = tid := hid (tid, t') (mem_of_dictGet? hg')
  rw [hid'] at he
  subst he
  rw [hg] at hg'
  exact hst ((Option.some_injective _ hg') ▸ hstat)

/-! ### Invariant machinery -/

theorem midInv_mono {todo todo' : List String} {s : TaskManagerState}
    (hsub : ∀ x ∈ todo, x ∈ todo') (h : MidInv todo s) : MidInv todo' s := by
  intro p hp
  obtain ⟨h1, h2⟩ := h p hp
  exact ⟨h1, fun hip => ⟨hsub _ (h2 hip).1, (h2 hip).2⟩⟩

theorem midInv_of_tasks_eq {todo : List String} {s1 s2 : TaskManagerState}
    (he : s1.tasks = s2.tasks) (h : MidInv todo s2) : MidInv todo s1 := by
  intro p hp
  exact h p (he ▸ hp)

theorem midInv_dictInsert {todo : List String} {s : TaskManagerState} {k : String} {v : Task}
    (hnd : dictKeysNodup s.tasks) (h : MidInv todo s)
    (hv : InvTask v ∧
      (v.status = TaskStatus.inProgress → k ∈ todo ∧ v.retry_count < v.max_retries)) :
    MidInv todo { s with tasks := dictInsert s.tasks k v } := by
  intro p hp
  rcases mem_dictInsert_strong hnd hp with h' | ⟨h1, _⟩
  · rw [h']
    exact hv
  · exact h p h1

/-! ### Invariant preservation through one wave -/

theorem markPhase {allIds : List String} :
    ∀ (rem : List Task) (s : TaskManagerState),
      dictKeysNodup s.tasks →
      (rem.map Task.id).Nodup →
      (∀ t ∈ rem, t.id ∈ allIds) →
      (∀ t ∈ rem, dictGet? s.tasks t.id = some t ∧ t.status = TaskStatus.pending) →
      MidInv allIds s →
      dictKeysNodup (rem.foldl (fun acc t => (mark_task_in_progress acc t.id).1) s).tasks ∧
      MidInv allIds (rem.foldl (fun acc t => (mark_task_in_progress acc t.id).1) s) ∧
      (∀ t ∈ rem,
        dictGet? (rem.foldl (fun acc t => (mark_task_in_progress acc t.id).1) s).tasks t.id =
          some { t with status := TaskStatus.inProgress }) := by
  intro rem
  induction rem with
  | nil =>
    intro s hnd _ _ _ hinv
    exact ⟨hnd, hinv, by simp⟩
  | cons t0 rest ih =>
    intro s hnd hids hall hpend hinv
    have hg0 : dictGet? s.tasks t0.id = some t0 := (hpend t0 (List.mem_cons_self _ _)).1
    have hp0 : t0.status = TaskStatus.pending := (hpend t0 (List.mem_cons_self _ _)).2
    have hretry : t0.retry_count < t0.max_retries :=
      (hinv (t0.id, t0) (mem_of_dictGet? hg0)).1.2.1 hp0
    rw [List.map_cons, List.nodup_cons] at hids
    have hs1tasks : (mark_task_in_progress s t0.id).1.tasks =
        dictInsert s.tasks t0.id { t0 with status := TaskStatus.inProgress } := by
      simp [mark_task_in_progress, hg0]
    have hnd1 : dictKeysNodup (mark_task_in_progress s t0.id).1.tasks := by
      rw [hs1tasks]; exact dictKeysNodup_insert hnd
    have hinv1 : MidInv allIds (mark_task_in_progress s t0.id).1 := by
      have hstep : MidInv allIds
          { s with tasks := dictInsert s.tasks t0.id { t0 with status := TaskStatus.inProgress } } :=
        midInv_dictInsert hnd hinv ⟨⟨Nat.le_of_lt hretry, fun _ => hretry,
          fun he => absurd he (Nat.ne_of_lt hretry)⟩,
          fun _ => ⟨hall t0 (List.mem_cons_self _ _), hretry⟩⟩
      exact midInv_of_tasks_eq hs1tasks hstep
    have hpend1 : ∀ t ∈ rest,
        dictGet? (mark_task_in_progress s t0.id).1.tasks t.id = some t ∧
          t.status = TaskStatus.pending := by
      intro t ht
      have hne : t.id ≠ t0.id := fun he => hids.1 (he ▸ List.mem_map_of_mem Task.id ht)
      rw [mark_in_progress_get_ne hne]
      exact hpend t (List.mem_cons_of_mem _ ht)
    have hall1 : ∀ t ∈ rest, t.id ∈ allIds := fun t ht => hall t (List.mem_cons_of_mem _ ht)
    obtain ⟨hndF, hinvF, hmarkedF⟩ :=
      ih (mark_task_in_progress s t0.id).1 hnd1 hids.2 hall1 hpend1 hinv1
    refine ⟨hndF, hinvF, ?_⟩
    intro t ht
    rcases List.mem_cons.mp ht with h1 | h1
    · subst h1
      have huntouched : ∀ q ∈ rest, q.id ≠ t.id :=
        fun q hq he => hids.1 (he ▸ List.mem_map_of_mem Task.id hq)
      rw [List.foldl_cons, foldl_mark_get_untouched huntouched, hs1tasks,
        dictGet?_insert, if_pos rfl]
    · exact hmarkedF t h1

theorem applyResult_effect {s : TaskManagerState} {pr : String × Outcome} {t : Task}
    (hgt : dictGet? s.tasks pr.1 = some t) (hretry : t.retry_count < t.max_retries) :
    ∃ v : Task, (applyResult s pr).tasks = dictInsert s.tasks pr.1 v ∧
      InvTask v ∧ v.status ≠ TaskStatus.inProgress := by
  obtain ⟨id, oc⟩ := pr
  cases oc with
  | success output =>
    refine ⟨{ t with status := TaskStatus.completed, result := output }, ?_, ?_, ?_⟩
    · simp [applyResult, mark_task_complete, hgt]
    · exact ⟨Nat.le_of_lt hretry, fun _ => hretry,
        fun he => absurd he (Nat.ne_of_lt hretry)⟩
    · intro h; exact TaskStatus.noConfusion h
  | failure output =>
    by_cases hb : t.retry_count + 1 ≥ t.max_retries
    · refine ⟨{ t with failure_history := t.failure_history ++ [output], retry_count := t.retry_count + 1, status := TaskStatus.failed }, ?_, ?_, ?_⟩
      · simp [applyResult, mark_task_failed, hgt, hb]
      · exact ⟨Nat.succ_le_of_lt hretry, fun h => TaskStatus.noConfusion h, fun _ => rfl⟩
      · intro h; exact TaskStatus.noConfusion h
    · refine ⟨{ t with failure_history := t.failure_history ++ [output], retry_count := t.retry_count + 1, status := TaskStatus.pending }, ?_, ?_, ?_⟩
      · simp [applyResult, mark_task_failed, hgt, hb]
      · exact ⟨Nat.le_of_lt (Nat.lt_of_not_le hb), fun _ => Nat.lt_of_not_le hb,
          fun he => absurd he (Nat.ne_of_lt (Nat.lt_of_not_le hb))⟩
      · intro h; exact TaskStatus.noConfusion h
  | exn msg =>
    by_cases hb : t.retry_count + 1 ≥ t.max_retries
    · refine ⟨{ t with failure_history := t.failure_history ++ ["异常: " ++ msg], retry_count := t.retry_count + 1, status := TaskStatus.failed }, ?_, ?_, ?_⟩
      · simp [applyResult, mark_task_failed, hgt, hb]
      · exact ⟨Nat.succ_le_of_lt hretry, fun h => TaskStatus.noConfusion h, fun _ => rfl⟩
      · intro h; exact TaskStatus.noConfusion h
    · refine ⟨{ t with failure_history := t.failure_history ++ ["异常: " ++ msg], retry_count := t.retry_count + 1, status := TaskStatus.pending }, ?_, ?_, ?_⟩
      · simp [applyResult, mark_task_failed, hgt, hb]
      · exact ⟨Nat.le_of_lt (Nat.lt_of_not_le hb), fun _ => Nat.lt_of_not_le hb,
          fun he => absurd he (Nat.ne_of_lt (Nat.lt_of_not_le hb))⟩
      · intro h; exact TaskStatus.noConfusion h

theorem applyPhase :
    ∀ (results : List (String × Outcome)) (s : TaskManagerState),
      dictKeysNodup s.tasks →
      (results.map Prod.fst).Nodup →
      (∀ pr ∈ results, ∃ t, dictGet? s.tasks pr.1 = some t ∧
        t.status = TaskStatus.inProgress) →
      MidInv (results.map Prod.fst) s →
      MidInv [] (processResults s results) := by
  intro results
  induction results with
  | nil =>
    intro s _ _ _ hinv
    exact hinv
  | cons pr rest ih =>
    intro s hnd hids hprog hinv
    obtain ⟨t, hgt, hit⟩ := hprog pr (List.mem_cons_self _ _)
    have hretry : t.retry_count < t.max_retries :=
      ((hinv (pr.1, t) (mem_of_dictGet? hgt)).2 hit).2
    obtain ⟨v, hveq, hvinv, hvnip⟩ := applyResult_effect hgt hretry
    rw [List.map_cons, List.nodup_cons] at hids
    have hnd1 : dictKeysNodup (applyResult s pr).tasks := by
      rw [hveq]; exact dictKeysNodup_insert hnd
    have hinv1 : MidInv (rest.map Prod.fst) (applyResult s pr) := by
      intro p hp
      rw [hveq] at hp
      rcases mem_dictInsert_strong hnd hp with h' | ⟨hin, hne⟩
      · rw [h']
        exact ⟨hvinv, fun hip => absurd hip hvnip⟩
      · obtain ⟨h1, h2⟩ := hinv p hin
        refine ⟨h1, fun hip => ⟨?_, (h2 hip).2⟩⟩
        rcases List.mem_cons.mp ((List.map_cons Prod.fst pr rest) ▸ (h2 hip).1) with he | he
        · exact absurd he hne
        · exact he
    have hprog1 : ∀ q ∈ rest, ∃ t', dictGet? (applyResult s pr).tasks q.1 = some t' ∧
        t'.status = TaskStatus.inProgress := by
      intro q hq
      have hne : q.1 ≠ pr.1 := fun he => hids.1 (he ▸ List.mem_map_of_mem Prod.fst hq)
      rw [hveq, dictGet?_insert, if_neg hne]
      exact hprog q (List.mem_cons_of_mem _ hq)
    exact ih (applyResult s pr) hnd1 hids.2 hprog1 hinv1

theorem GInv_runWave {s : TaskManagerState} (hwf : WF s) (hinv : GInv s)
    (oracle : Nat → String → Outcome) (wave : Nat) :
    GInv (runWave oracle wave s (get_all_ready_tasks s)) := by
  have hsub := ready_ids_sublist hwf.2.2.1
  have hidsnd : ((get_all_ready_tasks s).map Task.id).Nodup := hsub.nodup hwf.1
  have hall : ∀ t ∈ get_all_ready_tasks s, t.id ∈ (get_all_ready_tasks s).map Task.id :=
    fun t ht => List.mem_map_of_mem Task.id ht
  have hpend : ∀ t ∈ get_all_ready_tasks s,
      dictGet? s.tasks t.id = some t ∧ t.status = TaskStatus.pending := by
    intro t ht
    rcases mem_get_all_ready_tasks.mp ht with ⟨tid, _, hg, hstat, _⟩
    have hid' : t.id = tid := hwf.2.2.1 (tid, t) (mem_of_dictGet? hg)
    exact ⟨hid' ▸ hg, hstat⟩
  have hinv0 : MidInv ((get_all_ready_tasks s).map Task.id) s :=
    midInv_mono (fun x hx => absurd hx (List.not_mem_nil x)) hinv
  obtain ⟨hnd1, hinv1, hmarked⟩ :=
    markPhase (get_all_ready_tasks s) s hwf.2.1 hidsnd hall hpend hinv0
  unfold runWave
  have hidseq : (((get_all_ready_tasks s).map fun t => (t.id, oracle wave t.id)).map Prod.fst) =
      (get_all_ready_tasks s).map Task.id := by
    rw [List.map_map]; rfl
  apply applyPhase
  · exact hnd1
  · rw [hidseq]; exact hidsnd
  · intro pr hpr
    rcases List.mem_map.mp hpr with ⟨t, ht, hpt⟩
    refine ⟨{ t with status := TaskStatus.inProgress }, ?_, rfl⟩
    rw [← hpt]
    exact hmarked t ht
  · rw [hidseq]
    exact hinv1

theorem GInv_schedLoop (oracle : Nat → String → Outcome) :
    ∀ (fuel wave : Nat) {s : TaskManagerState}, WF s → GInv s →
      GInv (schedLoop oracle fuel wave s).1 := by
  intro fuel
  induction fuel with
  | zero => intro wave s _ hinv; exact hinv
  | succ n ih =>
    intro wave s hwf hinv
    show GInv (schedLoop oracle (n + 1) wave s).1
    rw [schedLoop]
    by_cases hr : (get_all_ready_tasks s).isEmpty
    · simp [hr]; exact hinv
    · simp only [hr, Bool.false_eq_true, if_false]
      exact ih (wave + 1) (WF_runWave hwf oracle wave _) (GInv_runWave hwf hinv oracle wave)

/-! ### Characterization of bulk creation -/

theorem createLoop_spec (l : List (String × String)) :
    ∀ s0 : TaskManagerState,
      (createLoop s0 (mkItems l)).1.task_order = s0.task_order ++ l.map Prod.fst ∧
      ∀ k, dictGet? (createLoop s0 (mkItems l)).1.tasks k =
        ((l.reverse.find? fun p => p.1 == k).map fun p => mkRecordTask p.1 p.2).or
          (dictGet? s0.tasks k) := by
  induction l with
  | nil =>
    intro s0
    constructor
    · simp [mkItems, createLoop]
    · intro k
      simp [mkItems, createLoop]
  | cons a l ih =>
    intro s0
    have hstep : createLoop s0 (mkItems (a :: l)) =
        createLoop { tasks := dictInsert s0.tasks a.1 (mkRecordTask a.1 a.2),
                     task_order := s0.task_order ++ [a.1] } (mkItems l) := rfl
    rw [hstep]
    obtain ⟨hord, hget⟩ :=
      ih { tasks := dictInsert s0.tasks a.1 (mkRecordTask a.1 a.2),
           task_order := s0.task_order ++ [a.1] }
    constructor
    · rw [hord]
      simp
    · intro k
      rw [hget k]
      show _ = ((((a :: l).reverse).find? fun p => p.1 == k).map
        fun p => mkRecordTask p.1 p.2).or (dictGet? s0.tasks k)
      rw [List.reverse_cons, List.find?_append]
      cases hfind : l.reverse.find? fun p => p.1 == k with
      | some q => simp [hfind, Option.or]
      | none =>
        simp only [hfind, Option.or, Option.map_none, dictGet?_insert]
        by_cases he : k = a.1
        · subst he
          simp [List.find?]
        · have hne : (a.1 == k) = false := by
            rw [beq_eq_false_iff_ne]
            exact fun h => he h.symm
          simp [List.find?, hne, he]

theorem createLoop_keysNodup :
    ∀ (xs : List Item) (s0 : TaskManagerState), dictKeysNodup s0.tasks →
      dictKeysNodup (createLoop s0 xs).1.tasks := by
  intro xs
  induction xs with
  | nil => intro s0 h; exact h
  | cons x rest ih =>
    intro s0 h
    cases x with
    | bad e => exact h
    | record id description dependencies =>
      exact ih _ (dictKeysNodup_insert h)

theorem createLoop_entries (l : List (String × String)) :
    ∀ (s0 : TaskManagerState) (p : String × Task),
      p ∈ (createLoop s0 (mkItems l)).1.tasks →
      p ∈ s0.tasks ∨ ∃ q ∈ l, p = (q.1, mkRecordTask q.1 q.2) := by
  induction l with
  | nil => intro s0 p hp; exact Or.inl hp
  | cons a l ih =>
    intro s0 p hp
    have hstep : createLoop s0 (mkItems (a :: l)) =
        createLoop { tasks := dictInsert s0.tasks a.1 (mkRecordTask a.1 a.2),
                     task_order := s0.task_order ++ [a.1] } (mkItems l) := rfl
    rw [hstep] at hp
    rcases ih _ p hp with h' | ⟨q, hq, hpq⟩
    · rcases mem_dictInsert h' with h1 | h1
      · exact Or.inr ⟨a, List.mem_cons_self _ _, h1⟩
      · exact Or.inl h1
    · exact Or.inr ⟨q, List.mem_cons_of_mem _ hq, hpq⟩

theorem create_WF_GInv (l : List (String × String)) (s0 : TaskManagerState)
    (hnodup : (l.map Prod.fst).Nodup) :
    WF (create_todo_list s0 (ParseOutcome.items (mkItems l))).1 ∧
      GInv (create_todo_list s0 (ParseOutcome.items (mkItems l))).1 := by
  have hcr : (create_todo_list s0 (ParseOutcome.items (mkItems l))).1 =
      (createLoop emptyState (mkItems l)).1 := rfl
  rw [hcr]
  obtain ⟨hord, hget⟩ := createLoop_spec l emptyState
  have hent : ∀ p ∈ (createLoop emptyState (mkItems l)).1.tasks,
      ∃ q ∈ l, p = (q.1, mkRecordTask q.1 q.2) := by
    intro p hp
    rcases createLoop_entries l emptyState p hp with h' | h'
    · exact absurd h' (List.not_mem_nil p)
    · exact h'
  constructor
  · refine ⟨?_, ?_, ?_, ?_⟩
    · rw [hord]
      simpa [emptyState] using hnodup
    · exact createLoop_keysNodup (mkItems l) emptyState (by simp [emptyState, dictKeysNodup])
    · intro p hp
      obtain ⟨q, _, hpq⟩ := hent p hp
      rw [hpq]
      rfl
    · intro k hk
      rw [hord] at hk
      simp only [emptyState, List.nil_append] at hk
      rw [hget k]
      have hkrev : k ∈ l.reverse.map Prod.fst := by
        rw [List.map_reverse]
        exact List.mem_reverse.mpr hk
      rcases List.mem_map.mp hkrev with ⟨q, hq, hqk⟩
      have hfs : (l.reverse.find? fun p => p.1 == k).isSome := by
        rw [List.find?_isSome]
        exact ⟨q, hq, by rw [hqk]; exact beq_self_eq_true k⟩
      cases hfind : l.reverse.find? fun p => p.1 == k with
      | none => rw [hfind] at hfs; exact absurd hfs (by simp)
      | some q' => simp [hfind, Option.or]
  · intro p hp
    obtain ⟨q, _, hpq⟩ := hent p hp
    rw [hpq]
    refine ⟨⟨by simp [mkRecordTask], fun _ => by simp [mkRecordTask], fun he => ?_⟩,
      fun hip => ?_⟩
    · simp [mkRecordTask] at he
    · simp [mkRecordTask] at hip

/-! ### Terminal statuses are never touched by the scheduler -/

theorem schedLoop_terminal (oracle : Nat → String → Outcome) :
    ∀ (fuel wave : Nat) {s : TaskManagerState} {k : String} {t : Task}, WF s →
      dictGet? s.tasks k = some t →
      (t.status = TaskStatus.completed ∨ t.status = TaskStatus.failed) →
      dictGet? (schedLoop oracle fuel wave s).1.tasks k = some t := by
  intro fuel
  induction fuel with
  | zero => intro wave s k t _ hg _; exact hg
  | succ n ih =>
    intro wave s k t hwf hg hterm
    show dictGet? (schedLoop oracle (n + 1) wave s).1.tasks k = some t
    rw [schedLoop]
    by_cases hr : (get_all_ready_tasks s).isEmpty
    · simp [hr]; exact hg
    · simp only [hr, Bool.false_eq_true, if_false]
      have hnp : t.status ≠ TaskStatus.pending := by
        rcases hterm with h | h <;> rw [h] <;> intro he <;> exact TaskStatus.noConfusion he
      have huntouched := terminal_not_ready hwf.2.2.1 hg hnp
      have hg1 : dictGet? (runWave oracle wave s (get_all_ready_tasks s)).tasks k = some t := by
        rw [runWave_get_untouched huntouched oracle wave]
        exact hg
      exact ih (wave + 1) (WF_runWave hwf oracle wave _) hg1 hterm

/-! ### Message-board lemmas -/

theorem post_count_le {board : List Message} {a : PostArgs} (w : String)
    (h : (board.filter fun m => m.worker_id == w && m.status == "in_progress").length ≤ 1) :
    ((post board a).filter fun m => m.worker_id == w && m.status == "in_progress").length ≤ 1 := by
  unfold post
  rw [List.filter_append]
  by_cases hw : a.worker_id = w
  · have hkept : ((board.filter fun m => !(m.worker_id == a.worker_id && m.status != "completed")).filter
        fun m => m.worker_id == w && m.status == "in_progress") = [] := by
      rw [List.filter_filter, List.filter_eq_nil_iff]
      intro m _
      subst hw
      by_cases h1 : m.worker_id = a.worker_id
      · by_cases h2 : m.status = "in_progress"
        · simp [h1, h2]
        · simp [h2]
      · simp [h1]
    rw [hkept]
    simpa using List.length_filter_le _ [_]
  · have hx : ∀ x : Message, x.worker_id = a.worker_id →
        (([x] : List Message).filter fun m => m.worker_id == w && m.status == "in_progress") = [] := by
      intro x hxw
      rw [List.filter_eq_nil_iff]
      intro m hm
      rw [List.mem_singleton] at hm
      subst hm
      simp [hxw, hw]
    rw [hx _ rfl]
    have hsub : ((board.filter fun m => !(m.worker_id == a.worker_id && m.status != "completed")).filter
        fun m => m.worker_id == w && m.status == "in_progress").Sublist
          (board.filter fun m => m.worker_id == w && m.status == "in_progress") :=
      List.Sublist.filter _ (List.filter_sublist board)
    simpa using le_trans hsub.length_le h

theorem runPosts_count_le (posts : List PostArgs) (w : String) :
    ((runPosts posts).filter fun m => m.worker_id == w && m.status == "in_progress").length ≤ 1 := by
  suffices h : ∀ b : List Message,
      (b.filter fun m => m.worker_id == w && m.status == "in_progress").length ≤ 1 →
      ((posts.foldl post b).filter
        fun m => m.worker_id == w && m.status == "in_progress").length ≤ 1 by
    exact h [] (by simp)
  induction posts with
  | nil => intro b hb; exact hb
  | cons a rest ih =>
    intro b hb
    exact ih (post b a) (post_count_le w hb)

theorem mem_post_of_completed {board : List Message} {m : Message} {a : PostArgs}
    (hm : m ∈ board) (hc : m.status = "completed") : m ∈ post board a := by
  unfold post
  apply List.mem_append_left
  rw [List.mem_filter]
  refine ⟨hm, ?_⟩
  simp [hc]

theorem mem_runPosts_append {posts more : List PostArgs} {m : Message}
    (hm : m ∈ runPosts posts) (hc : m.status = "completed") :
    m ∈ runPosts (posts ++ more) := by
  unfold runPosts at hm ⊢
  rw [List.foldl_append]
  revert hm
  generalize posts.foldl post [] = b
  intro hm
  induction more generalizing b with
  | nil => exact hm
  | cons a rest ih =>
    rw [List.foldl_cons]
    exact ih (post b a) (mem_post_of_completed hm hc)

theorem runPosts_message_length (posts : List PostArgs) :
    ∀ m ∈ runPosts posts, m.message.length ≤ 500 := by
  suffices h : ∀ b : List Message, (∀ m ∈ b, m.message.length ≤ 500) →
      ∀ m ∈ posts.foldl post b, m.message.length ≤ 500 by
    exact h [] (by simp)
  induction posts with
  | nil => intro b hb; exact hb
  | cons a rest ih =>
    intro b hb
    refine ih (post b a) ?_
    intro m hm
    unfold post at hm
    rcases List.mem_append.mp hm with h1 | h1
    · exact hb m (List.mem_filter.mp h1).1
    · rw [List.mem_singleton] at h1
      subst h1
      show (a.message.data.take 500).length ≤ 500
      exact List.length_take_le _ _

/-! ### Claim theorems -/

/-- Claim C1, counterexample: the registry operations do not guard terminal
states.  On a registry whose task "1" is Completed, `mark_task_in_progress`
(markRunning) changes its status to Running, so it is false that no registry
operation ever changes the status of a Completed task. -/
theorem C1_counterexample :
    (dictGet? completedState.tasks "1").map Task.status = some TaskStatus.completed ∧
    (dictGet? (mark_task_in_progress completedState "1").1.tasks "1").map Task.status =
      some TaskStatus.inProgress := ⟨rfl, rfl⟩

/-- Claim C1, amended: within wave-scheduler execution (`schedLoop`, the loop
of `execute_all_tasks_parallel`) on a well-formed registry, a task that is
Completed or Failed is never selected again and its whole record — in
particular its status — never changes; the bare registry operations
themselves do not enforce this. -/
theorem C1_terminal_under_scheduler (oracle : Nat → String → Outcome)
    (fuel wave : Nat) (s : TaskManagerState) (k : String) (t : Task)
    (hwf : WF s) (hg : dictGet? s.tasks k = some t)
    (hterm : t.status = TaskStatus.completed ∨ t.status = TaskStatus.failed) :
    dictGet? (schedLoop oracle fuel wave s).1.tasks k = some t :=
  schedLoop_terminal oracle fuel wave hwf hg hterm

/-- Witness for C1: a full scheduler run over a mixed registry leaves its
Completed task "1" untouched. -/
theorem C1_witness :
    (WF sampleMixed ∧
      dictGet? sampleMixed.tasks "1" =
        some { id := "1", description := "a", status := TaskStatus.completed }) ∧
    dictGet? (schedLoop oracleB 15 1 sampleMixed).1.tasks "1" =
      some { id := "1", description := "a", status := TaskStatus.completed } :=
  ⟨⟨by decide, rfl⟩,
    C1_terminal_under_scheduler oracleB 15 1 sampleMixed "1" _ (by decide) rfl (Or.inl rfl)⟩

/-- Claim C2, counterexample: a malformed input that parses to a
non-iterable value makes `create_todo_list` return a descriptive error, yet
the registry is cleared rather than left untouched — the replace is not
atomic for this class of malformed input. -/
theorem C2_counterexample :
    (create_todo_list sampleOne (ParseOutcome.notIterable "int object is not iterable")).2 =
      "Error: Failed to create task list - int object is not iterable" ∧
    (create_todo_list sampleOne (ParseOutcome.notIterable "int object is not iterable")).1 ≠
      sampleOne :=
  ⟨rfl, by decide⟩

/-- Claim C2, amended: an input whose parse raises is rejected with a
descriptive error and leaves the registry unchanged; an input that parses
but fails during task construction also returns a descriptive error, but
only after the registry has been cleared — the result never depends on the
prior registry contents. -/
theorem C2_amended (s : TaskManagerState) (e : String) :
    create_todo_list s (ParseOutcome.parseError e) =
      (s, "Error: JSON parsing failed - " ++ e) ∧
    (create_todo_list s (ParseOutcome.notIterable e)).1 = emptyState ∧
    (create_todo_list s (ParseOutcome.notIterable e)).2 =
      "Error: Failed to create task list - " ++ e ∧
    ∀ xs : List Item, create_todo_list s (ParseOutcome.items xs) =
      create_todo_list emptyState (ParseOutcome.items xs) :=
  ⟨rfl, rfl, rfl, fun _ => rfl⟩

/-- Claim C3, counterexample: with a duplicated input id the same task is
dispatched twice per wave, and after a run with an always-failing executor
the reachable final state has `retry_count = 4 > max_retries = 3`. -/
theorem C3_counterexample :
    (dictGet? dupRun.state.tasks "1").map Task.retry_count = some 4 ∧
    (dictGet? dupRun.state.tasks "1").map Task.max_retries = some 3 := by
  decide

/-- Claim C3, amended: provided the installed task list has pairwise
distinct ids, every state reachable by the wave scheduler satisfies
`retry_count ≤ max_retries`; a task whose `retry_count` equals
`max_retries` is Failed and never appears in any ready set; creation
establishes the invariant and every scheduler step (any fuel) preserves
it. -/
theorem C3_retry_invariant :
    (∀ (l : List (String × String)) (s0 : TaskManagerState),
      (l.map Prod.fst).Nodup →
      WF (create_todo_list s0 (ParseOutcome.items (mkItems l))).1 ∧
        GInv (create_todo_list s0 (ParseOutcome.items (mkItems l))).1) ∧
    (∀ s : TaskManagerState, GInv s →
      (∀ p ∈ s.tasks, p.2.retry_count ≤ p.2.max_retries ∧
        (p.2.retry_count = p.2.max_retries → p.2.status = TaskStatus.failed)) ∧
      (∀ p ∈ s.tasks, p.2.retry_count = p.2.max_retries →
        p.2 ∉ get_all_ready_tasks s)) ∧
    (∀ (oracle : Nat → String → Outcome) (fuel wave : Nat) (s : TaskManagerState),
      WF s → GInv s →
      WF (schedLoop oracle fuel wave s).1 ∧ GInv (schedLoop oracle fuel wave s).1) := by
  refine ⟨create_WF_GInv, ?_, ?_⟩
  · intro s hinv
    constructor
    · intro p hp
      exact ⟨(hinv p hp).1.1, (hinv p hp).1.2.2⟩
    · intro p hp he hr
      have hpend := ready_mem_pending hr
      have hfail := (hinv p hp).1.2.2 he
      rw [hpend] at hfail
      exact TaskStatus.noConfusion hfail
  · intro oracle fuel wave s hwf hinv
    exact ⟨WF_schedLoop oracle fuel wave hwf, GInv_schedLoop oracle fuel wave hwf hinv⟩

/-- Witness for C3: the invariant theorem applied to a concrete two-task
list and to the concrete mixed registry, with a concrete scheduler run. -/
theorem C3_witness :
    ((([("1", "a"), ("2", "b")].map Prod.fst).Nodup ∧ WF sampleMixed ∧ GInv sampleMixed) ∧
    (WF (create_todo_list emptyState (ParseOutcome.items (mkItems [("1", "a"), ("2", "b")]))).1 ∧
      GInv (create_todo_list emptyState (ParseOutcome.items (mkItems [("1", "a"), ("2", "b")]))).1) ∧
    (∀ p ∈ sampleMixed.tasks, p.2.retry_count ≤ p.2.max_retries ∧
      (p.2.retry_count = p.2.max_retries → p.2.status = TaskStatus.failed)) ∧
    (WF (schedLoop oracleB 15 1 sampleMixed).1 ∧ GInv (schedLoop oracleB 15 1 sampleMixed).1)) :=
  ⟨⟨by decide, by decide, by decide⟩,
    C3_retry_invariant.1 [("1", "a"), ("2", "b")] emptyState (by decide),
    fun p hp => (C3_retry_invariant.2.1 sampleMixed (by decide)).1 p hp,
    C3_retry_invariant.2.2 oracleB 15 1 sampleMixed (by decide) (by decide)⟩

/-- Claim C4: `mark_task_failed` on any task appends the reason to
`failure_history` and increments `retry_count`; the task becomes Pending
when `retry_count + 1 < max_retries` and Failed otherwise.  Scenario C: a
task whose executor fails twice and then succeeds under `max_retries = 3`
ends Completed with exactly two failure-history entries and
`retry_count = 2`. -/
theorem C4_mark_failed_transition :
    (∀ (s : TaskManagerState) (task_id reason : String),
      dictGet? (mark_task_failed s task_id reason).1.tasks task_id =
        (dictGet? s.tasks task_id).map fun t =>
          if t.retry_count + 1 < t.max_retries then
            { t with status := TaskStatus.pending,
                     failure_history := t.failure_history ++ [reason],
                     retry_count := t.retry_count + 1 }
          else
            { t with status := TaskStatus.failed,
                     failure_history := t.failure_history ++ [reason],
                     retry_count := t.retry_count + 1 }) ∧
    dictGet? scenCRun.state.tasks "1" =
      some { id := "1", description := "a", status := TaskStatus.completed,
             result := "done", retry_count := 2, max_retries := 3,
             failure_history := ["f1", "f2"] } := by
  constructor
  · intro s task_id reason
    cases hg : dictGet? s.tasks task_id with
    | none => simp [mark_task_failed, hg]
    | some t =>
      rw [mark_failed_get_self hg, Option.map_some']
      by_cases hb : t.retry_count + 1 ≥ t.max_retries
      · rw [if_pos hb, if_neg (Nat.not_lt.mpr hb)]
      · rw [if_neg hb, if_pos (Nat.lt_of_not_le hb)]
  · decide

/-- Claim C5, counterexample: on the (reachable) registry created from an
input with a duplicated id, the ready set contains the same task twice, so
it is not duplicate-free for every registry state. -/
theorem C5_counterexample : ¬ (get_all_ready_tasks dupState).Nodup := by
  decide

/-- Claim C5, amended: on every registry state whose insertion order is
duplicate-free and whose task records carry their own key as id (true of
every state built from distinct input ids), `get_all_ready_tasks` is
duplicate-free, follows registry insertion order, and contains exactly the
Pending tasks each of whose dependency ids is absent from the registry or
names a Completed task; it is a pure function of the state. -/
theorem C5_ready_set_spec (s : TaskManagerState)
    (hnodup : s.task_order.Nodup) (hid : ∀ p ∈ s.tasks, p.2.id = p.1) :
    (get_all_ready_tasks s).Nodup ∧
    ((get_all_ready_tasks s).map Task.id).Sublist s.task_order ∧
    (∀ t : Task, t ∈ get_all_ready_tasks s ↔
      ∃ tid ∈ s.task_order, dictGet? s.tasks tid = some t ∧
        t.status = TaskStatus.pending ∧ deps_satisfied s t = true) := by
  have hsub := ready_ids_sublist hid
  exact ⟨List.Nodup.of_map Task.id (hsub.nodup hnodup), hsub,
    fun t => mem_get_all_ready_tasks⟩

/-- Witness for C5: the ready-set specification applied to the concrete
mixed registry (completed dependency satisfied, unknown dependency id
tolerated). -/
theorem C5_witness :
    (sampleMixed.task_order.Nodup ∧ ∀ p ∈ sampleMixed.tasks, p.2.id = p.1) ∧
    ((get_all_ready_tasks sampleMixed).Nodup ∧
    ((get_all_ready_tasks sampleMixed).map Task.id).Sublist sampleMixed.task_order ∧
    (∀ t : Task, t ∈ get_all_ready_tasks sampleMixed ↔
      ∃ tid ∈ sampleMixed.task_order, dictGet? sampleMixed.tasks tid = some t ∧
        t.status = TaskStatus.pending ∧ deps_satisfied sampleMixed t = true)) :=
  ⟨⟨by decide, by decide⟩, C5_ready_set_spec sampleMixed (by decide) (by decide)⟩

/-- Claim C6, counterexample: installing a list that repeats id "1" maps
"1" to the last record, but the id occurs twice (not exactly once) in the
resulting ordered task set `task_order`. -/
theorem C6_counterexample :
    dupState.task_order.count "1" = 2 ∧
    dictGet? dupState.tasks "1" = some (mkRecordTask "1" "b") := by
  decide

/-- Claim C6, amended: `create_todo_list` discards all prior tasks (the
result does not depend on the previous registry), each id maps to the last
input record bearing it, and the insertion order lists one entry per input
record — so an id duplicated in the input also appears duplicated in the
ordered task set. -/
theorem C6_replace_all_spec (l : List (String × String)) (s : TaskManagerState) :
    (create_todo_list s (ParseOutcome.items (mkItems l))).1.task_order = l.map Prod.fst ∧
    (∀ k, dictGet? (create_todo_list s (ParseOutcome.items (mkItems l))).1.tasks k =
      ((l.reverse.find? fun p => p.1 == k).map fun p => mkRecordTask p.1 p.2)) ∧
    (create_todo_list s (ParseOutcome.items (mkItems l))).1 =
      (create_todo_list emptyState (ParseOutcome.items (mkItems l))).1 := by
  obtain ⟨hord, hget⟩ := createLoop_spec l emptyState
  refine ⟨by simpa [emptyState] using hord, ?_, rfl⟩
  intro k
  have hnone : dictGet? emptyState.tasks k = none := rfl
  rw [show (create_todo_list s (ParseOutcome.items (mkItems l))).1 =
    (createLoop emptyState (mkItems l)).1 from rfl, hget k, hnone, Option.or_none]

set_option maxRecDepth 100000 in
set_option maxHeartbeats 2000000 in
/-- Claim C7, counterexample: run A exhausts the 15-wave cap while run B
terminates as a deadlock, yet both runs return character-for-character the
same final report — the report does not distinguish an incomplete
(cap-exhausted) run from a deadlocked one. -/
theorem C7_counterexample :
    runA.exitKind = ExitKind.capExhausted ∧ runB.exitKind = ExitKind.deadlock ∧
    runA.report = runB.report := ⟨rfl, rfl, rfl⟩

/-- Claim C7, amended: the final report of any run (cap-exhausted or not) is
exactly `get_final_summary` of the final registry state and carries no
marker of how the loop ended; when not all tasks completed and none failed
its verdict line is "Tasks in progress..." — the same verdict a deadlocked
run produces — so a cap-exhausted run is distinguishable from the
all-completed success report but not from a deadlock report. -/
theorem C7_cap_report (oracle : Nat → String → Outcome) (s : TaskManagerState) :
    (execute_all_tasks_parallel oracle s).report =
      get_final_summary (execute_all_tasks_parallel oracle s).state ∧
    (∀ s' : TaskManagerState, is_all_completed s' = false → has_failed_tasks s' = false →
      final_verdict s' = "Tasks in progress...") := by
  refine ⟨rfl, ?_⟩
  intro s' h1 h2
  unfold final_verdict
  simp [h1, h2]

/-- Witness for C7: the report law applied to the concrete cap-exhausting
run A and its initial state. -/
theorem C7_witness :
    (is_all_completed stateA = false ∧ has_failed_tasks stateA = false) ∧
    (execute_all_tasks_parallel oracleA stateA).report =
      get_final_summary (execute_all_tasks_parallel oracleA stateA).state ∧
    final_verdict stateA = "Tasks in progress..." :=
  ⟨⟨by decide, by decide⟩, (C7_cap_report oracleA stateA).1,
    (C7_cap_report oracleA stateA).2 stateA (by decide) (by decide)⟩

/-- Claim C8: a dispatched invocation that surfaces an exception is applied
exactly as a task failure whose reason is the fault description (the
exception text prefixed as in the source), so it neither terminates the
wave nor prevents the other gathered results — before or after it — from
being applied. -/
theorem C8_exception_as_failure (s : TaskManagerState) (results1 : List (String × Outcome))
    (id msg : String) (results2 : List (String × Outcome)) :
    processResults s (results1 ++ (id, Outcome.exn msg) :: results2) =
      processResults s (results1 ++ (id, Outcome.failure ("异常: " ++ msg)) :: results2) ∧
    applyResult s (id, Outcome.exn msg) = (mark_task_failed s id ("异常: " ++ msg)).1 := by
  constructor
  · unfold processResults
    simp only [List.foldl_append]
    rfl
  · rfl

/-- Claim C9: over every serialized sequence of `post` calls, the board
holds at most one in-progress message per worker id, completed messages are
never removed by later posts, and every stored message body is at most 500
characters. -/
theorem C9_board_invariants (posts : List PostArgs) :
    (∀ w : String, ((runPosts posts).filter
      fun m => m.worker_id == w && m.status == "in_progress").length ≤ 1) ∧
    (∀ (more : List PostArgs) (m : Message), m ∈ runPosts posts → m.status = "completed" →
      m ∈ runPosts (posts ++ more)) ∧
    (∀ m ∈ runPosts posts, m.message.length ≤ 500) :=
  ⟨runPosts_count_le posts, fun _ _ hm hc => mem_runPosts_append hm hc,
    runPosts_message_length posts⟩

/-- Witness for C9: the board invariants applied to a concrete post
sequence in which worker w1 completes a task and later posts a new
in-progress update. -/
theorem C9_witness :
    (c9msg ∈ runPosts c9posts ∧ c9msg.status = "completed") ∧
    c9msg ∈ runPosts (c9posts ++ c9more) ∧
    (∀ w : String, ((runPosts c9posts).filter
      fun m => m.worker_id == w && m.status == "in_progress").length ≤ 1) :=
  ⟨⟨by decide, rfl⟩,
    (C9_board_invariants c9posts).2.1 c9more c9msg (by decide) rfl,
    (C9_board_invariants c9posts).1⟩

set_option maxRecDepth 4000 in
/-- Claim C10: on the empty registry `is_all_completed` is true and
`has_failed_tasks` is false, so a run started with no tasks exits in wave 1
through the all-completed branch and its final report ends with the
all-completed verdict. -/
theorem C10_empty_registry (oracle : Nat → String → Outcome) :
    is_all_completed emptyState = true ∧
    has_failed_tasks emptyState = false ∧
    (execute_all_tasks_parallel oracle emptyState).exitKind = ExitKind.allCompleted ∧
    (execute_all_tasks_parallel oracle emptyState).exitWave = 1 ∧
    (execute_all_tasks_parallel oracle emptyState).report =
      String.intercalate "\n" [eqBar50, "📊 Task Execution Summary Report", eqBar50, "",
        "✅ Completed Tasks: 0/0", dashBar40, "", eqBar50,
        "All tasks completed successfully!"] := by
  refine ⟨rfl, rfl, rfl, rfl, ?_⟩
  show get_final_summary emptyState = _
  decide

end SwufeAgent
